import Mathlib

/-!
Shallow embedding of the tardigrade-project user lifecycle core:
the `User` domain entity (`src/domain/entities/user.py`), the domain error
taxonomy (`src/domain/exceptions/domain_exceptions.py`), the SQL repository
adapter (`src/infrastructure/database/sql/repositories/user_repository.py`)
over the `users` table schema
(`src/infrastructure/database/sql/models/user.py`), the use cases
(`src/application/use_cases/user_use_cases.py`) and the PUT route handler
(`src/infrastructure/api/routes/user_routes.py`).

The database session and the `users` table are modelled by an explicit
`Store` value: the list of rows in the engine's return order, the
autoincrement sequence value, and a clock supplying the `now()` server
default for `created_at`.  Every repository and use-case operation is a
pure state-passing function `Store → ... → Store × result`; a raised
exception is an `Except.error`.  The schema's PRIMARY KEY and UNIQUE
constraints (`users.id`, `users.email`) are enforced at flush time, as the
engine does, by `integrityError`.
-/

namespace Tardigrade

/-- The `User` dataclass of `src/domain/entities/user.py`.  Python defaults:
`is_active=True`, `created_at=None`; construction sites below spell all
fields out.  Timestamps are modelled as natural numbers. -/
structure User where
  id : Option Nat
  email : String
  name : String
  is_active : Bool
  created_at : Option Nat
deriving DecidableEq

/-- The domain exception taxonomy of
`src/domain/exceptions/domain_exceptions.py`, plus `integrityError` for the
engine-level `IntegrityError` raised at flush when a UNIQUE or PRIMARY KEY
constraint of the `users` schema is violated (the latter is a sqlalchemy
exception, not a `DomainError`, but all failures travel the same raise
channel). -/
inductive AppError where
  | invalidEmail (email : String)
  | invalidName (name : String)
  | userNotFound (user_id : Nat)
  | emailAlreadyExists (email : String)
  | integrityError
deriving DecidableEq

/-- `User.validate` (`src/domain/entities/user.py`, lines 32-42):
`if not self.email or "@" not in self.email: raise InvalidEmailError`;
`if not self.name or len(self.name) < 2: raise InvalidNameError`.
Python's `"@" in s` is substring containment, which for the one-character
string `"@"` is character membership. -/
def User.validate (u : User) : Except AppError Unit :=
  if u.email == "" || !(u.email.toList.contains '@') then
    .error (.invalidEmail u.email)
  else if u.name == "" || u.name.length < 2 then
    .error (.invalidName u.name)
  else
    .ok ()

/-- A row of the `users` table
(`src/infrastructure/database/sql/models/user.py`): `id` PRIMARY KEY
autoincrement, `email` UNIQUE NOT NULL, `name` NOT NULL, `is_active`,
`created_at` with server default `now()`. -/
structure Row where
  id : Nat
  email : String
  name : String
  is_active : Bool
  created_at : Nat
deriving DecidableEq

/-- The state of the `users` table as seen through one session: `rows` in
the order the engine returns them in (a `SELECT` without `ORDER BY` yields
exactly this order), the autoincrement sequence value `nextId`, and a
`clock` supplying the `now()` server default. -/
structure Store where
  rows : List Row
  nextId : Nat
  clock : Nat
deriving DecidableEq

namespace SQLUserRepository

/-- `SQLUserRepository._to_entity`: row → entity, a direct field copy. -/
def _to_entity (model : Row) : User :=
  { id := some model.id
    email := model.email
    name := model.name
    is_active := model.is_active
    created_at := some model.created_at }

/-- The effect of `session.add(self._to_model(user))` followed by `flush`:
`_to_model` keeps an explicit `id` / `created_at` and drops unset ones, so
the engine assigns `nextId` when `id` is unset and `now()` when
`created_at` is unset.  Flush raises `IntegrityError` when the new row
violates the PRIMARY KEY or the UNIQUE email constraint.  The autoincrement
sequence advances only when the engine assigned the id. -/
def flushInsert (s : Store) (user : User) : Store × Except AppError Row :=
  let newId := user.id.getD s.nextId
  let row : Row :=
    { id := newId
      email := user.email
      name := user.name
      is_active := user.is_active
      created_at := user.created_at.getD s.clock }
  if s.rows.any (fun r => r.id == newId) then
    (s, .error .integrityError)
  else if s.rows.any (fun r => r.email == user.email) then
    (s, .error .integrityError)
  else
    ({ rows := s.rows ++ [row]
       nextId := if user.id.isNone then s.nextId + 1 else s.nextId
       clock := s.clock + 1 },
     .ok row)

/-- `SQLUserRepository.get_by_id` (lines 70-81): `SELECT ... WHERE id = ?`,
`scalar_one_or_none` (at most one row matches the primary key), convert or
return `None`. -/
def get_by_id (s : Store) (user_id : Nat) : Store × Option User :=
  (s, (s.rows.find? (fun r => r.id == user_id)).map _to_entity)

/-- `SQLUserRepository.get_by_email` (lines 83-94): `SELECT ... WHERE
email = ?`, `scalar_one_or_none`, convert or return `None`. -/
def get_by_email (s : Store) (email : String) : Store × Option User :=
  (s, (s.rows.find? (fun r => r.email == email)).map _to_entity)

/-- `SQLUserRepository.save` (lines 96-131).  `id` unset: insert.  `id`
set: re-fetch the row; present: overwrite `email`, `name`, `is_active`
(not `id`, not `created_at`), flush (which enforces the UNIQUE email
constraint against the other rows), refresh, return; absent: fall back to
inserting as new.  With the primary key unique, at most one row matches,
so the in-place overwrite is the pointwise map over rows with that id. -/
def save (s : Store) (user : User) : Store × Except AppError User :=
  match user.id with
  | none =>
    match flushInsert s user with
    | (s', .ok row) => (s', .ok (_to_entity row))
    | (s', .error e) => (s', .error e)
  | some uid =>
    match s.rows.find? (fun r => r.id == uid) with
    | some model =>
      if s.rows.any (fun r => r.id != uid && r.email == user.email) then
        (s, .error .integrityError)
      else
        ({ s with rows := s.rows.map (fun r =>
            if r.id == uid then
              { r with email := user.email, name := user.name, is_active := user.is_active }
            else r) },
         .ok (_to_entity { model with
            email := user.email, name := user.name, is_active := user.is_active }))
    | none =>
      match flushInsert s user with
      | (s', .ok row) => (s', .ok (_to_entity row))
      | (s', .error e) => (s', .error e)

/-- `SQLUserRepository.delete` (lines 133-148): fetch by id; present:
delete that row and return `True`; absent: return `False`. -/
def delete (s : Store) (user_id : Nat) : Store × Bool :=
  match s.rows.find? (fun r => r.id == user_id) with
  | some _ => ({ s with rows := s.rows.eraseP (fun r => r.id == user_id) }, true)
  | none => (s, false)

/-- `SQLUserRepository.list_all` (lines 150-162):
`select(UserModel).offset(skip).limit(limit)` — no `ORDER BY`, so the rows
come back in the engine's order, then each is converted. -/
def list_all (s : Store) (skip limit : Nat) : Store × List User :=
  (s, ((s.rows.drop skip).take limit).map _to_entity)

end SQLUserRepository

namespace CreateUserUseCase

/-- `CreateUserUseCase.execute` (lines 26-48): build `User(id=None, email,
name)` with dataclass defaults, `validate()`, `get_by_email`; found →
raise `EmailAlreadyExistsError(email)`; else `save`. -/
def execute (s : Store) (email name : String) : Store × Except AppError User :=
  let user : User := { id := none, email := email, name := name, is_active := true, created_at := none }
  match user.validate with
  | .error e => (s, .error e)
  | .ok () =>
    let p := SQLUserRepository.get_by_email s email
    match p.2 with
    | some _ => (p.1, .error (.emailAlreadyExists email))
    | none => SQLUserRepository.save p.1 user

end CreateUserUseCase

namespace GetUserUseCase

/-- `GetUserUseCase.execute` (lines 62-77): `get_by_id`; `None` → raise
`UserNotFoundError(user_id)`; else return the entity (a dataclass instance
is always truthy, so `if not user` means `user is None`). -/
def execute (s : Store) (user_id : Nat) : Store × Except AppError User :=
  let p := SQLUserRepository.get_by_id s user_id
  match p.2 with
  | none => (p.1, .error (.userNotFound user_id))
  | some user => (p.1, .ok user)

end GetUserUseCase

namespace ListUsersUseCase

/-- `ListUsersUseCase.execute` (lines 91-101): delegate to
`list_all(skip, limit)` (Python defaults `skip=0`, `limit=100` are passed
explicitly at every call site modelled here). -/
def execute (s : Store) (skip limit : Nat) : Store × List User :=
  SQLUserRepository.list_all s skip limit

end ListUsersUseCase

namespace DeleteUserUseCase

/-- `DeleteUserUseCase.execute` (lines 115-131): `get_by_id`; `None` →
raise `UserNotFoundError(user_id)`; else `delete(user_id)` and return its
boolean result. -/
def execute (s : Store) (user_id : Nat) : Store × Except AppError Bool :=
  let p := SQLUserRepository.get_by_id s user_id
  match p.2 with
  | none => (p.1, .error (.userNotFound user_id))
  | some _ =>
    let q := SQLUserRepository.delete p.1 user_id
    (q.1, .ok q.2)

end DeleteUserUseCase

/-- The `UserUpdate` request schema
(`src/infrastructure/api/schemas/user_schemas.py`): all three fields
optional. -/
structure UserUpdate where
  email : Option String
  name : Option String
  is_active : Option Bool
deriving DecidableEq

/-- The PUT handler `update_user`
(`src/infrastructure/api/routes/user_routes.py`, lines 102-125): fetch the
existing user through `GetUserUseCase`, overwrite each field that the
payload provides, `validate()`, then `repository.save(user)`.  No
`get_by_email` call occurs anywhere on this path. -/
def update_user (s : Store) (user_id : Nat) (user_data : UserUpdate) :
    Store × Except AppError User :=
  let p := GetUserUseCase.execute s user_id
  match p.2 with
  | .error e => (p.1, .error e)
  | .ok user =>
    let user : User :=
      { user with
        email := user_data.email.getD user.email
        name := user_data.name.getD user.name
        is_active := user_data.is_active.getD user.is_active }
    match user.validate with
    | .error e => (p.1, .error e)
    | .ok () => SQLUserRepository.save p.1 user

/-- Well-formedness of a store: the table constraints hold — primary keys
are unique and emails are unique. -/
def WF (s : Store) : Prop :=
  (s.rows.map Row.id).Nodup ∧ (s.rows.map Row.email).Nodup

/-- The autoincrement sequence is ahead of every stored id.  This holds in
normal engine operation, where only the sequence assigns ids; explicitly
supplied ids (the `save` fallback) can break it, exactly as they can in
PostgreSQL. -/
def freshId (s : Store) : Prop :=
  ∀ r ∈ s.rows, r.id ≠ s.nextId

/-- The source's email-validity condition: non-empty and containing "@". -/
def emailValid (u : User) : Prop :=
  ¬ (u.email = "" ∨ u.email.toList.contains '@' = false)

/-- The source's name-validity condition: non-empty and at least 2
characters long. -/
def nameValid (u : User) : Prop :=
  ¬ (u.name = "" ∨ u.name.length < 2)

/-- A store reachable from the empty database: `save` of a detached entity
with explicit id 5 (the upsert fallback inserts it, leaving the
autoincrement sequence at 1), then a `Create`, which inserts with the
engine-assigned id 1.  The table now returns the row with id 5 before the
row with id 1. -/
def c1Store : Store :=
  let s0 : Store := { rows := [], nextId := 1, clock := 0 }
  let s1 := (SQLUserRepository.save s0
    { id := some 5, email := "a@b.com", name := "Jo", is_active := true, created_at := none }).1
  (CreateUserUseCase.execute s1 "c@d.com" "Al").1

/-- A one-row store used to exercise `save` against the schema's unique
email constraint. -/
def c3Store : Store :=
  { rows := [{ id := 1, email := "a@b.com", name := "Jo", is_active := true, created_at := 0 }]
    nextId := 2
    clock := 1 }

section Lemmas

/-- A `validate` failure is one of the two validation errors. -/
theorem validate_error_cases (u : User) (e : AppError)
    (h : u.validate = .error e) :
    e = .invalidEmail u.email ∨ e = .invalidName u.name := by
  unfold User.validate at h
  split_ifs at h <;> simp_all

/-- A `flushInsert` failure is always the engine's `IntegrityError`. -/
theorem flushInsert_error_cases (s : Store) (u : User) (e : AppError)
    (h : (SQLUserRepository.flushInsert s u).2 = .error e) :
    e = .integrityError := by
  simp only [SQLUserRepository.flushInsert] at h
  split_ifs at h <;> simp_all

/-- A `save` failure is always the engine's `IntegrityError`: the adapter
itself raises no domain error. -/
theorem save_error_cases (s : Store) (u : User) (e : AppError)
    (h : (SQLUserRepository.save s u).2 = .error e) :
    e = .integrityError := by
  simp only [SQLUserRepository.save] at h
  split at h
  · split at h <;> rename_i heq
    · simp_all
    · have h2 := flushInsert_error_cases s u _ (by rw [heq])
      simp at h
      exact h ▸ h2
  · split at h
    · split_ifs at h
      simp_all
    · split at h <;> rename_i heq
      · simp_all
      · have h2 := flushInsert_error_cases s u _ (by rw [heq])
        simp at h
        exact h ▸ h2

/-- A `GetUserUseCase` failure is always `UserNotFound` with the requested
id. -/
theorem get_execute_error_cases (s : Store) (user_id : Nat) (e : AppError)
    (h : (GetUserUseCase.execute s user_id).2 = .error e) :
    e = .userNotFound user_id := by
  simp only [GetUserUseCase.execute, SQLUserRepository.get_by_id] at h
  split at h <;> simp_all

/-- Under unique primary keys, any member carrying the looked-up id is
the one `find?` returns. -/
theorem find?_id_eq_of_mem (l : List Row) (uid : Nat) (r : Row)
    (hnodup : (l.map Row.id).Nodup) (hr : r ∈ l) (hrid : r.id = uid) :
    l.find? (fun x => x.id == uid) = some r := by
  induction l with
  | nil => cases hr
  | cons a t ih =>
    have hmap : (Row.id a :: t.map Row.id).Nodup := by simpa using hnodup
    have hnotin := (List.nodup_cons.mp hmap).1
    have htail := (List.nodup_cons.mp hmap).2
    rcases List.mem_cons.mp hr with h | h
    · subst h
      exact List.find?_cons_of_pos t (by simpa using hrid)
    · have ha : ¬ (a.id = uid) := by
        intro haid
        apply hnotin
        rw [haid, ← hrid]
        exact List.mem_map_of_mem Row.id h
      rw [List.find?_cons_of_neg t (by simpa using ha)]
      exact ih htail h

/-- Under unique primary keys, after erasing the row with the looked-up id
no row with that id remains. -/
theorem find?_eraseP_id_eq_none (l : List Row) (uid : Nat)
    (hnodup : (l.map Row.id).Nodup) :
    (l.eraseP (fun r => r.id == uid)).find? (fun r => r.id == uid) = none := by
  induction l with
  | nil => simp
  | cons a t ih =>
    have hmap : (Row.id a :: t.map Row.id).Nodup := by simpa using hnodup
    have hnotin := (List.nodup_cons.mp hmap).1
    have htail := (List.nodup_cons.mp hmap).2
    by_cases ha : a.id = uid
    · rw [List.eraseP_cons_of_pos (by simpa using ha)]
      rw [List.find?_eq_none]
      intro r hr
      simp only [beq_iff_eq]
      intro hrid
      apply hnotin
      rw [ha, ← hrid]
      exact List.mem_map_of_mem Row.id hr
    · rw [List.eraseP_cons_of_neg (by simpa using ha)]
      rw [List.find?_cons_of_neg _ (by simpa using ha)]
      exact ih htail

end Lemmas

/-- Claim C1: `list_all` (through the List use case) is claimed to return
users sorted by primary key ascending for every store state.  The `SELECT`
carries no `ORDER BY`, so the rows come back in the engine's own order:
on the reachable store `c1Store` the ids come back as `[5, 1]`, which is
not ascending. -/
theorem list_all_not_ordered_by_id :
    ((ListUsersUseCase.execute c1Store 0 100).2.map User.id = [some 5, some 1]) ∧
    ¬ (((ListUsersUseCase.execute c1Store 0 100).2.map
        (fun u => u.id.getD 0)).Sorted (· ≤ ·)) := by
  constructor
  · rfl
  · intro h
    have h' : List.Sorted (· ≤ ·) ([5, 1] : List Nat) := h
    have h51 : (5 : Nat) ≤ 1 := List.rel_of_sorted_cons h' 1 (by simp)
    omega

/-- Claim C2 (counterexample): with the empty (hence invalid) email `""`
and the one-character name `"x"`, `validate()` raises `InvalidEmail("")`,
not `InvalidName("x")`: the email check runs first. -/
theorem short_name_invalid_email_cex :
    User.validate { id := none, email := "", name := "x", is_active := true, created_at := none } ≠
      .error (.invalidName "x") ∧
    User.validate { id := none, email := "", name := "x", is_active := true, created_at := none } =
      .error (.invalidEmail "") := by
  constructor
  · intro h
    rw [show User.validate
        { id := none, email := "", name := "x", is_active := true, created_at := none } =
        .error (.invalidEmail "") from rfl] at h
    simp at h
  · rfl

/-- Claim C2 (amended): for every name shorter than 2 characters and every
valid email (non-empty, containing "@"), `validate()` fails with
`InvalidName(name)`. -/
theorem short_name_fails_invalid_name (email name : String)
    (he1 : email ≠ "") (he2 : email.toList.contains '@' = true)
    (hn : name.length < 2) :
    User.validate { id := none, email := email, name := name, is_active := true, created_at := none } =
      .error (.invalidName name) := by
  unfold User.validate
  have he2' : '@' ∈ email.data := by simpa using he2
  rw [if_neg (by simp [he1, he2']), if_pos (by simp [hn])]

/-- Claim C2 (witness for the amended theorem) at email `"a@b"`, name
`"x"`. -/
theorem short_name_fails_invalid_name_witness :
    User.validate { id := none, email := "a@b", name := "x", is_active := true, created_at := none } =
      .error (.invalidName "x") :=
  short_name_fails_invalid_name "a@b" "x" (by decide) (by decide) (by decide)

/-- Claim C6 (counterexample): at email `"noat"` (no "@") and name `"J"`
(shorter than 2), the claimed clause "fails with InvalidName(name) if name
is empty or shorter than 2 characters" does not hold: the email check runs
first and `validate()` raises `InvalidEmail("noat")`. -/
theorem validate_email_precedence_cex :
    User.validate { id := none, email := "noat", name := "J", is_active := true, created_at := none } ≠
      .error (.invalidName "J") ∧
    User.validate { id := none, email := "noat", name := "J", is_active := true, created_at := none } =
      .error (.invalidEmail "noat") := by
  constructor
  · intro h
    rw [show User.validate
        { id := none, email := "noat", name := "J", is_active := true, created_at := none } =
        .error (.invalidEmail "noat") from rfl] at h
    simp at h
  · rfl

/-- Claim C6 (amended): `validate()` is a pure function of the entity's
own fields with the cascade semantics of the source: it fails with
`InvalidEmail(email)` exactly when the email is empty or lacks "@" (a lone
"@" passes); otherwise it fails with `InvalidName(name)` exactly when the
name is empty or shorter than 2 characters (whitespace-only names of
length ≥ 2 pass, since no trimming occurs); and it succeeds exactly when
the email is valid and the name has length ≥ 2. -/
theorem validate_cascade_characterization (u : User) :
    (u.validate = .error (.invalidEmail u.email) ↔ ¬ emailValid u) ∧
    (u.validate = .error (.invalidName u.name) ↔ emailValid u ∧ ¬ nameValid u) ∧
    (u.validate = .ok () ↔ emailValid u ∧ nameValid u) := by
  simp only [User.validate, emailValid, nameValid]
  split_ifs with h1 h2 <;> simp_all

/-- Claim C3 (counterexample): a `User` with set id 2 whose row is not in
the store, but whose email collides with the stored row's unique email:
the fallback insert violates the schema's UNIQUE email constraint and
`save` fails with the engine's `IntegrityError` instead of persisting. -/
theorem save_fallback_can_fail_cex :
    (∀ r ∈ c3Store.rows, r.id ≠ 2) ∧
    (SQLUserRepository.save c3Store
      { id := some 2, email := "a@b.com", name := "Al", is_active := true, created_at := some 0 }).2 =
      .error .integrityError :=
  ⟨by decide, rfl⟩

/-- Claim C3 (amended): for every `User` with a set id whose row is no
longer in the store and whose email is not used by any stored row, `save`
does not fail: it falls back to inserting the user as a new row (keeping
the explicit id, defaulting `created_at` from the server clock when unset,
leaving the autoincrement sequence untouched) and returns the persisted
entity with id and `created_at` populated. -/
theorem save_fallback_inserts (s : Store) (u : User) (uid : Nat)
    (hid : u.id = some uid)
    (hnoid : ∀ r ∈ s.rows, r.id ≠ uid)
    (hnoemail : ∀ r ∈ s.rows, r.email ≠ u.email) :
    SQLUserRepository.save s u =
      ({ rows := s.rows ++ [{ id := uid, email := u.email, name := u.name, is_active := u.is_active, created_at := u.created_at.getD s.clock }]
         nextId := s.nextId
         clock := s.clock + 1 },
       .ok { id := some uid, email := u.email, name := u.name, is_active := u.is_active, created_at := some (u.created_at.getD s.clock) }) := by
  have hfind : s.rows.find? (fun r => r.id == uid) = none := by
    rw [List.find?_eq_none]
    intro r hr
    simpa using hnoid r hr
  have hany1 : s.rows.any (fun r => r.id == uid) = false := by
    rw [List.any_eq_false]
    intro r hr
    simpa using hnoid r hr
  have hany2 : s.rows.any (fun r => r.email == u.email) = false := by
    rw [List.any_eq_false]
    intro r hr
    simpa using hnoemail r hr
  simp [SQLUserRepository.save, SQLUserRepository.flushInsert,
    SQLUserRepository._to_entity, hid, hfind, hany1, hany2]

/-- Claim C3 (witness for the amended theorem): the fallback insert of a
detached entity with id 7 and a fresh email into a one-row store. -/
theorem save_fallback_inserts_witness :
    SQLUserRepository.save c3Store
      { id := some 7, email := "x@y.com", name := "Al", is_active := false, created_at := some 5 } =
      ({ rows := [{ id := 1, email := "a@b.com", name := "Jo", is_active := true, created_at := 0 },
                  { id := 7, email := "x@y.com", name := "Al", is_active := false, created_at := 5 }]
         nextId := 2
         clock := 2 },
       .ok { id := some 7, email := "x@y.com", name := "Al", is_active := false,
             created_at := some 5 }) :=
  save_fallback_inserts c3Store
    { id := some 7, email := "x@y.com", name := "Al", is_active := false, created_at := some 5 }
    7 rfl (by decide) (by decide)

/-- Claim C4: `Create(email, name)` builds `User(id=None, email, name)`,
validates first — a validation failure propagates with the store unchanged
and no repository call can have had an effect — then checks `get_by_email`:
it fails with `EmailAlreadyExists(email)` exactly when a user with that
email is stored (again leaving the store unchanged), and otherwise saves
once, appending the new row with the engine-assigned id and `created_at`
and returning the persisted entity.  `freshId` is the engine invariant
that the autoincrement sequence is ahead of every stored id. -/
theorem create_user_spec (s : Store) (email name : String) (hfresh : freshId s) :
    (∀ e, User.validate { id := none, email := email, name := name, is_active := true, created_at := none } =
        .error e →
      CreateUserUseCase.execute s email name = (s, .error e)) ∧
    (User.validate { id := none, email := email, name := name, is_active := true, created_at := none } =
        .ok () →
      (((CreateUserUseCase.execute s email name).2 = .error (.emailAlreadyExists email)) ↔
          ∃ r ∈ s.rows, r.email = email) ∧
      ((∃ r ∈ s.rows, r.email = email) →
          CreateUserUseCase.execute s email name = (s, .error (.emailAlreadyExists email))) ∧
      ((∀ r ∈ s.rows, r.email ≠ email) →
          CreateUserUseCase.execute s email name =
            ({ rows := s.rows ++ [{ id := s.nextId, email := email, name := name, is_active := true, created_at := s.clock }]
               nextId := s.nextId + 1
               clock := s.clock + 1 },
             .ok { id := some s.nextId, email := email, name := name, is_active := true, created_at := some s.clock }))) := by
  constructor
  · intro e he
    simp [CreateUserUseCase.execute, he]
  · intro hok
    cases hfind : s.rows.find? (fun r => r.email == email) with
    | some r =>
      have hmem := List.mem_of_find?_eq_some hfind
      have hremail : r.email = email := by simpa using List.find?_some hfind
      have hexec : CreateUserUseCase.execute s email name = (s, .error (.emailAlreadyExists email)) := by
        simp [CreateUserUseCase.execute, hok, SQLUserRepository.get_by_email, hfind]
      refine ⟨?_, fun _ => hexec, ?_⟩
      · rw [hexec]
        exact ⟨fun _ => ⟨r, hmem, hremail⟩, fun _ => rfl⟩
      · intro hforall
        exact absurd hremail (hforall r hmem)
    | none =>
      have hnotmem : ∀ r ∈ s.rows, r.email ≠ email := by
        intro r hr
        simpa using List.find?_eq_none.mp hfind r hr
      have hany1 : s.rows.any (fun r => r.id == s.nextId) = false := by
        rw [List.any_eq_false]
        intro r hr
        simpa using hfresh r hr
      have hany2 : s.rows.any (fun r => r.email == email) = false := by
        rw [List.any_eq_false]
        intro r hr
        simpa using hnotmem r hr
      have hexec : CreateUserUseCase.execute s email name =
          ({ rows := s.rows ++ [{ id := s.nextId, email := email, name := name, is_active := true, created_at := s.clock }]
             nextId := s.nextId + 1
             clock := s.clock + 1 },
           .ok { id := some s.nextId, email := email, name := name, is_active := true, created_at := some s.clock }) := by
        simp [CreateUserUseCase.execute, hok, SQLUserRepository.get_by_email, hfind,
          SQLUserRepository.save, SQLUserRepository.flushInsert,
          SQLUserRepository._to_entity, hany1, hany2]
      refine ⟨?_, ?_, fun _ => hexec⟩
      · rw [hexec]
        constructor
        · intro h
          simp at h
        · rintro ⟨r, hr, hre⟩
          exact absurd hre (hnotmem r hr)
      · rintro ⟨r, hr, hre⟩
        exact absurd hre (hnotmem r hr)

/-- Claim C4 (witness): a successful create on the empty store. -/
theorem create_user_spec_witness :
    CreateUserUseCase.execute { rows := [], nextId := 1, clock := 0 } "a@b.com" "Jo" =
      ({ rows := [{ id := 1, email := "a@b.com", name := "Jo", is_active := true, created_at := 0 }]
         nextId := 2
         clock := 1 },
       .ok { id := some 1, email := "a@b.com", name := "Jo", is_active := true,
             created_at := some 0 }) :=
  ((create_user_spec { rows := [], nextId := 1, clock := 0 } "a@b.com" "Jo"
      (by intro r hr; simp at hr)).2 rfl).2.2 (by intro r hr; simp at hr)

/-- Claim C5 (counterexample): a `User` with set id 2 whose row exists in
the store, updated to the email already held by the row with id 1: the
flush violates the schema's UNIQUE email constraint, so `save` fails with
the engine's `IntegrityError` and overwrites nothing — the claimed
overwrite does not happen for every such user. -/
theorem save_update_collision_cex :
    (∃ r ∈ ({ rows := [{ id := 1, email := "a@b.com", name := "Jo", is_active := true, created_at := 0 },
                       { id := 2, email := "c@d.com", name := "Al", is_active := true, created_at := 1 }]
              nextId := 3
              clock := 2 } : Store).rows, r.id = 2) ∧
    SQLUserRepository.save
      { rows := [{ id := 1, email := "a@b.com", name := "Jo", is_active := true, created_at := 0 },
                 { id := 2, email := "c@d.com", name := "Al", is_active := true, created_at := 1 }]
        nextId := 3
        clock := 2 }
      { id := some 2, email := "a@b.com", name := "Al", is_active := true, created_at := some 1 } =
      ({ rows := [{ id := 1, email := "a@b.com", name := "Jo", is_active := true, created_at := 0 },
                  { id := 2, email := "c@d.com", name := "Al", is_active := true, created_at := 1 }]
         nextId := 3
         clock := 2 },
       .error .integrityError) :=
  ⟨by decide, rfl⟩

/-- Claim C5 (amended): for a `User` with a set id whose row exists and
whose new email does not belong to any other stored row (so the flush
succeeds against the UNIQUE email constraint), `save` overwrites exactly
the `email`, `name` and `is_active` columns of the rows carrying that id,
leaving each row's `id` and `created_at` — and every other row, the
autoincrement sequence and the clock — unchanged, and returns the
refreshed entity built from the updated row.  When the new email belongs
to another row, `save` fails with the engine's `IntegrityError` and the
store is unchanged. -/
theorem save_update_frame (s : Store) (u : User) (uid : Nat)
    (hid : u.id = some uid)
    (hrow : ∃ r ∈ s.rows, r.id = uid)
    (hemail : ∀ r ∈ s.rows, r.email = u.email → r.id = uid) :
    ∃ m ∈ s.rows, m.id = uid ∧
      SQLUserRepository.save s u =
        ({ s with rows := s.rows.map (fun r =>
            if r.id == uid then
              { r with email := u.email, name := u.name, is_active := u.is_active }
            else r) },
         .ok { id := some uid, email := u.email, name := u.name,
               is_active := u.is_active, created_at := some m.created_at }) := by
  obtain ⟨r0, hr0, hr0id⟩ := hrow
  have hsome : (s.rows.find? (fun r => r.id == uid)).isSome :=
    List.find?_isSome.mpr ⟨r0, hr0, by simpa using hr0id⟩
  obtain ⟨m, hm⟩ := Option.isSome_iff_exists.mp hsome
  have hmmem := List.mem_of_find?_eq_some hm
  have hmid : m.id = uid := by simpa using List.find?_some hm
  have hcond : s.rows.any (fun r => r.id != uid && r.email == u.email) = false := by
    rw [List.any_eq_false]
    intro r hr
    simp only [Bool.and_eq_true, bne_iff_ne, beq_iff_eq, not_and]
    intro hne hre
    exact hne (hemail r hr hre)
  refine ⟨m, hmmem, hmid, ?_⟩
  simp [SQLUserRepository.save, SQLUserRepository._to_entity, hid, hm, hcond, hmid]

/-- Claim C5 (witness): updating the row with id 2 in a two-row store
overwrites exactly its email, name and activity flag. -/
theorem save_update_frame_witness :
    ∃ m ∈ ({ rows := [{ id := 1, email := "a@b.com", name := "Jo", is_active := true, created_at := 0 },
                      { id := 2, email := "c@d.com", name := "Al", is_active := true, created_at := 1 }]
             nextId := 3
             clock := 2 } : Store).rows, m.id = 2 ∧
      SQLUserRepository.save
        { rows := [{ id := 1, email := "a@b.com", name := "Jo", is_active := true, created_at := 0 },
                   { id := 2, email := "c@d.com", name := "Al", is_active := true, created_at := 1 }]
          nextId := 3
          clock := 2 }
        { id := some 2, email := "e@f.com", name := "Bob", is_active := false, created_at := none } =
        ({ rows := [{ id := 1, email := "a@b.com", name := "Jo", is_active := true, created_at := 0 },
                    { id := 2, email := "c@d.com", name := "Al", is_active := true, created_at := 1 }].map
            (fun r =>
              if r.id == 2 then
                { r with email := "e@f.com", name := "Bob", is_active := false }
              else r)
           nextId := 3
           clock := 2 },
         .ok { id := some 2, email := "e@f.com", name := "Bob", is_active := false,
               created_at := some m.created_at }) :=
  save_update_frame _
    { id := some 2, email := "e@f.com", name := "Bob", is_active := false, created_at := none }
    2 rfl (by decide) (by decide)

/-- Claim C9: the PUT handler `update_user` performs no email-uniqueness
pre-check (no `get_by_email` call), so every failure it can produce is the
not-found error from the fetch, a validation error, or the engine's
`IntegrityError` from the schema's unique constraint — never the domain
error `EmailAlreadyExists`, even when the new email belongs to another
stored user. -/
theorem update_user_error_classification (s : Store) (user_id : Nat)
    (data : UserUpdate) (e : AppError)
    (h : (update_user s user_id data).2 = .error e) :
    e = .userNotFound user_id ∨ (∃ em, e = .invalidEmail em) ∨
    (∃ nm, e = .invalidName nm) ∨ e = .integrityError := by
  simp only [update_user] at h
  split at h <;> rename_i heq
  · have h1 := get_execute_error_cases s user_id _ heq
    simp at h
    exact Or.inl (h ▸ h1)
  · split at h <;> rename_i heq2
    · have h2 := validate_error_cases _ _ heq2
      simp at h
      rcases h2 with h2 | h2
      · exact Or.inr (Or.inl ⟨_, h ▸ h2⟩)
      · exact Or.inr (Or.inr (Or.inl ⟨_, h ▸ h2⟩))
    · have h3 := save_error_cases _ _ _ h
      exact Or.inr (Or.inr (Or.inr h3))

/-- Claim C9 (witness): an update on the empty store fails with the fetch
not-found error, which the classification covers. -/
theorem update_user_error_classification_witness :
    (AppError.userNotFound 1 = AppError.userNotFound 1 ∨
      (∃ em, AppError.userNotFound 1 = AppError.invalidEmail em) ∨
      (∃ nm, AppError.userNotFound 1 = AppError.invalidName nm) ∨
      AppError.userNotFound 1 = AppError.integrityError) :=
  update_user_error_classification { rows := [], nextId := 1, clock := 0 } 1
    { email := none, name := none, is_active := none } (.userNotFound 1) rfl

/-- Claim C7: `Delete(id)` looks the user up first and fails with
`UserNotFound(id)` with the store untouched when no row carries the id;
when a row does, the repository delete removes it and returns `true`, and
a subsequent `Get(id)` fails with `UserNotFound(id)`. -/
theorem delete_user_spec (s : Store) (user_id : Nat) (hwf : WF s) :
    ((∀ r ∈ s.rows, r.id ≠ user_id) →
        DeleteUserUseCase.execute s user_id = (s, .error (.userNotFound user_id))) ∧
    ((∃ r ∈ s.rows, r.id = user_id) →
        (DeleteUserUseCase.execute s user_id).2 = .ok true ∧
        (GetUserUseCase.execute (DeleteUserUseCase.execute s user_id).1 user_id).2 =
          .error (.userNotFound user_id)) := by
  constructor
  · intro habs
    have hfind : s.rows.find? (fun r => r.id == user_id) = none := by
      rw [List.find?_eq_none]
      intro r hr
      simpa using habs r hr
    simp [DeleteUserUseCase.execute, SQLUserRepository.get_by_id, hfind]
  · rintro ⟨r0, hr0, hr0id⟩
    have hsome : (s.rows.find? (fun r => r.id == user_id)).isSome :=
      List.find?_isSome.mpr ⟨r0, hr0, by simpa using hr0id⟩
    obtain ⟨m, hm⟩ := Option.isSome_iff_exists.mp hsome
    have herase := find?_eraseP_id_eq_none s.rows user_id hwf.1
    constructor
    · simp [DeleteUserUseCase.execute, SQLUserRepository.get_by_id,
        SQLUserRepository.delete, hm]
    · simp [DeleteUserUseCase.execute, GetUserUseCase.execute,
        SQLUserRepository.get_by_id, SQLUserRepository.delete, hm, herase]

/-- Claim C7 (witness): deleting the only user of a one-row store returns
`true` and a subsequent get fails with `UserNotFound(1)`. -/
theorem delete_user_spec_witness :
    (DeleteUserUseCase.execute c3Store 1).2 = .ok true ∧
    (GetUserUseCase.execute (DeleteUserUseCase.execute c3Store 1).1 1).2 =
      .error (.userNotFound 1) :=
  (delete_user_spec c3Store 1 (by constructor <;> simp [c3Store])).2 (by decide)

/-- Claim C8: `Get(id)` fails with `UserNotFound(id)` exactly when no row
carries the id, and otherwise returns the stored entity with every field
copied from the row and the store unchanged. -/
theorem get_user_spec (s : Store) (user_id : Nat) (hwf : WF s) :
    ((GetUserUseCase.execute s user_id).2 = .error (.userNotFound user_id) ↔
        ∀ r ∈ s.rows, r.id ≠ user_id) ∧
    (∀ r ∈ s.rows, r.id = user_id →
        GetUserUseCase.execute s user_id = (s, .ok (SQLUserRepository._to_entity r))) := by
  constructor
  · constructor
    · intro h r hr hrid
      have hfind := find?_id_eq_of_mem s.rows user_id r hwf.1 hr hrid
      simp [GetUserUseCase.execute, SQLUserRepository.get_by_id, hfind] at h
    · intro habs
      have hfind : s.rows.find? (fun x => x.id == user_id) = none := by
        rw [List.find?_eq_none]
        intro r hr
        simpa using habs r hr
      simp [GetUserUseCase.execute, SQLUserRepository.get_by_id, hfind]
  · intro r hr hrid
    have hfind := find?_id_eq_of_mem s.rows user_id r hwf.1 hr hrid
    simp [GetUserUseCase.execute, SQLUserRepository.get_by_id, hfind]

/-- Claim C8 (witness): a get on the empty store fails with
`UserNotFound(999999)`, carrying the requested id. -/
theorem get_user_spec_witness :
    (GetUserUseCase.execute { rows := [], nextId := 1, clock := 0 } 999999).2 =
      .error (.userNotFound 999999) :=
  (get_user_spec { rows := [], nextId := 1, clock := 0 } 999999
    (by constructor <;> simp)).1.mpr (by simp)

/-- Claim C10: the read operations `get_by_id`, `get_by_email` and
`list_all` return the store they were given: a `SELECT` modifies nothing,
whether or not the lookup finds a user. -/
theorem reads_leave_store_unchanged :
    ∀ (s : Store) (user_id : Nat) (email : String) (skip limit : Nat),
      (SQLUserRepository.get_by_id s user_id).1 = s ∧
      (SQLUserRepository.get_by_email s email).1 = s ∧
      (SQLUserRepository.list_all s skip limit).1 = s := by
  intro s user_id email skip limit
  exact ⟨rfl, rfl, rfl⟩

end Tardigrade
